import Mathlib

/-!
Shallow embedding of the Ryzen AI security layer threat-detection API
(rust/api/src/main.rs): the rule-based classifiers, SHA-256 cache-key
derivation, the LRU result cache, the statistics aggregator, and the
single-item and batch dispatch paths.

Modelling conventions:
* Rust strings are modelled by their UTF-8 byte sequences (`RStr`), so that
  byte-level operations of the source (`len`, substring search, `url[7..]`
  slicing at a byte index) keep their exact semantics, including the panic
  of `url[7..]` on a non-char-boundary index, modelled with `Except.error`.
* The f32 `confidence` arithmetic is modelled over `ℚ` with the literal
  signal weights; on every reachable sum of the fixed weights, every
  comparison against the fixed thresholds agrees with f32 evaluation
  (checked by exhaustive enumeration of the signal combinations).
* Elapsed wall-clock time (`start.elapsed().as_millis()`) is a parameter of
  the dispatch functions, since real time is outside the embedding.
* The `lru` crate's `LruCache` (an external dependency) is modelled from its
  documented behavior: `peek` looks a key up WITHOUT updating recency,
  `put` inserts or updates a key, makes it most recent, and evicts the
  least-recently-used entry when a fresh key is added at capacity.
-/

/-- Decidable equality for `Except`, so concrete runs of the fallible
(panic-modelling) functions can be checked by `decide`. -/
instance {ε α : Type} [DecidableEq ε] [DecidableEq α] : DecidableEq (Except ε α) := fun
  | Except.error a, Except.error b =>
    if h : a = b then isTrue (by rw [h]) else isFalse (by intro hc; cases hc; exact h rfl)
  | Except.error _, Except.ok _ => isFalse (by intro hc; cases hc)
  | Except.ok _, Except.error _ => isFalse (by intro hc; cases hc)
  | Except.ok a, Except.ok b =>
    if h : a = b then isTrue (by rw [h]) else isFalse (by intro hc; cases hc; exact h rfl)

/-- A Rust `String`/`&str`, modelled as its UTF-8 byte sequence. -/
abbrev RStr : Type := List Nat

/-- UTF-8 encoding of one Unicode scalar value (1-4 bytes). -/
def utf8Char (c : Char) : List Nat :=
  let n := c.toNat
  if n < 0x80 then [n]
  else if n < 0x800 then [0xC0 + n / 0x40, 0x80 + n % 0x40]
  else if n < 0x10000 then
    [0xE0 + n / 0x1000, 0x80 + (n / 0x40) % 0x40, 0x80 + n % 0x40]
  else
    [0xF0 + n / 0x40000, 0x80 + (n / 0x1000) % 0x40, 0x80 + (n / 0x40) % 0x40,
     0x80 + n % 0x40]

/-- The UTF-8 bytes of a string literal, used to transport the Rust string
literals of the source into the byte-sequence model. -/
def utf8 (s : String) : RStr := (s.data.map utf8Char).flatten

/-- Bool-valued "this list starts with that list" (the byte-level semantics
of Rust substring search at one position). -/
def leadsWith : RStr → RStr → Bool
  | _, [] => true
  | [], _ :: _ => false
  | a :: as, b :: bs => a == b && leadsWith as bs

/-- Rust `str::contains(pat)` for a literal pattern: byte-level substring
search (for a valid-UTF-8 ASCII pattern this coincides with char search). -/
def strContains : RStr → RStr → Bool
  | [], n => leadsWith [] n
  | h@(_ :: t), n => leadsWith h n || strContains t n

/-- Rust `str::is_char_boundary(i)`: true at 0 and at the length, false past
the end, and otherwise true iff the byte at `i` is not a UTF-8 continuation
byte. -/
def isCharBoundary (s : RStr) (i : Nat) : Bool :=
  if i = 0 then true
  else
    match s.get? i with
    | none => i == s.length
    | some b => b < 0x80 || 0xC0 ≤ b

/-- Panic message of byte slicing at a non-char-boundary index. -/
def panicCharBoundary : String := "byte index is not a char boundary"

/-- Rust slicing `s[i..]`: the byte suffix from `i`, or a panic (modelled as
`Except.error`) when `i` is past the end or not a char boundary. -/
def rsliceFrom (s : RStr) (i : Nat) : Except String RStr :=
  if isCharBoundary s i then Except.ok (s.drop i) else Except.error panicCharBoundary

/-- UTF-8 continuation byte test. -/
def contByte (b : Nat) : Bool := 0x80 ≤ b && b < 0xC0

/-- Decode the first Unicode scalar value of a UTF-8 byte sequence
(`none` on an empty or malformed sequence). -/
def decodeFirstCodepoint : RStr → Option Nat
  | [] => none
  | b0 :: rest =>
    if b0 < 0x80 then some b0
    else if b0 < 0xC0 then none
    else if b0 < 0xE0 then
      match rest with
      | b1 :: _ => if contByte b1 then some ((b0 - 0xC0) * 0x40 + (b1 - 0x80)) else none
      | [] => none
    else if b0 < 0xF0 then
      match rest with
      | b1 :: b2 :: _ =>
        if contByte b1 && contByte b2 then
          some (((b0 - 0xE0) * 0x40 + (b1 - 0x80)) * 0x40 + (b2 - 0x80))
        else none
      | _ => none
    else
      match rest with
      | b1 :: b2 :: b3 :: _ =>
        if contByte b1 && contByte b2 && contByte b3 then
          some ((((b0 - 0xF0) * 0x40 + (b1 - 0x80)) * 0x40 + (b2 - 0x80)) * 0x40 + (b3 - 0x80))
        else none
      | _ => none

/-- Modelled from Rust std `char::is_numeric`, restricted to its ASCII-digit
fragment: every instantiation in this development decodes an ASCII
character, where `is_numeric` is exactly `'0'..='9'`; admitting further
Unicode numeral ranges would only enlarge the set on which the IP-address
signal fires and is irrelevant to every claim settled below. -/
def charIsNumeric (cp : Nat) : Bool := 0x30 ≤ cp && cp ≤ 0x39

/-- Rust `s.starts_with(|c: char| c.is_numeric())`: decode the first char
and test it (false on the empty string). -/
def startsWithNumericChar (s : RStr) : Bool :=
  match decodeFirstCodepoint s with
  | some cp => charIsNumeric cp
  | none => false

/-! String constants of the source (kinds, labels, severities, reasons,
signal patterns). -/

def sUrl : String := "url"
def sCode : String := "code"
def sAction : String := "action"
def lblPhishing : String := "phishing"
def lblMalware : String := "malware"
def lblBehavioral : String := "behavioral"
def sUnknown : String := "unknown"
def sevCritical : String := "critical"
def sevHigh : String := "high"
def sevMedium : String := "medium"
def sevLow : String := "low"
def rLongUrl : String := "Unusually long URL"
def rSuspiciousDomain : String := "Suspicious domain pattern"
def rIpAddress : String := "Using IP address instead of domain"
def rCtxKeywords : String := "Context contains phishing keywords"
def rLegitimate : String := "URL appears legitimate"
def rSuspiciousFn : String := "Suspicious function detected"
def rObfuscation : String := "Code obfuscation detected"
def rInjection : String := "Script injection pattern found"
def rCodeSafe : String := "Code appears safe"
def rBehaviorPending : String := "Behavior analysis pending"
def rUnknownType : String := "Unknown threat type"
def pPaypa : String := "paypa"
def pAmaz0n : String := "amaz0n"
def pGo0gle : String := "go0gle"
def pHttpScheme : String := "http://"
def pVerify : String := "verify"
def pConfirm : String := "confirm"
def pEvalFn : String := "eval"
def pExecFn : String := "exec"
def pAtob : String := "atob"
def pFromCharCode : String := "String.fromCharCode"
def pScriptTag : String := "<script"
def pOnclick : String := "onclick"

/-- `ThreatDetectionRequest` of the source. -/
structure ThreatDetectionRequest where
  threat_type : RStr
  content : RStr
  context : Option RStr
deriving DecidableEq

/-- `ThreatDetectionResponse` of the source; `confidence` is the f32 score
modelled over ℚ, `latency_ms` the u64 milliseconds. -/
structure ThreatDetectionResponse where
  is_threat : Bool
  threat_type : String
  confidence : ℚ
  severity : String
  reasons : List String
  latency_ms : Nat
  cached : Bool
deriving DecidableEq

/-- The look-alike brand-substring check of `detect_phishing`. -/
def suspiciousPattern (url : RStr) : Bool :=
  strContains url (utf8 pPaypa) || strContains url (utf8 pAmaz0n) ||
    strContains url (utf8 pGo0gle)

/-- The IP-address check of `detect_phishing`
(`url.contains("http://") && url[7..].starts_with(|c: char| c.is_numeric())`):
`Except.error` models the panic of `url[7..]` when byte 7 is not a char
boundary; short-circuiting of `&&` means the slice is only taken when the
scheme substring is present. -/
def ipSignal (url : RStr) : Except String Bool :=
  if strContains url (utf8 pHttpScheme) then
    match rsliceFrom url 7 with
    | Except.error e => Except.error e
    | Except.ok t => Except.ok (startsWithNumericChar t)
  else Except.ok false

/-- The context-keyword check of `detect_phishing`
(`if let Some(ctx) = context { ctx.contains("verify") || ctx.contains("confirm") }`). -/
def contextKeyword : Option RStr → Bool
  | some ctx => strContains ctx (utf8 pVerify) || strContains ctx (utf8 pConfirm)
  | none => false

/-- `detect_phishing` of the source, signal by signal in source order. -/
def detect_phishing (url : RStr) (context : Option RStr) :
    Except String ThreatDetectionResponse :=
  let confidence : ℚ := 0
  let reasons : List String := []
  let confidence := if 200 < url.length then confidence + 0.3 else confidence
  let reasons := if 200 < url.length then reasons ++ [rLongUrl] else reasons
  let confidence := if suspiciousPattern url then confidence + 0.4 else confidence
  let reasons := if suspiciousPattern url then reasons ++ [rSuspiciousDomain] else reasons
  match ipSignal url with
  | Except.error e => Except.error e
  | Except.ok ipFired =>
    let confidence := if ipFired then confidence + 0.3 else confidence
    let reasons := if ipFired then reasons ++ [rIpAddress] else reasons
    let confidence := if contextKeyword context then confidence + 0.2 else confidence
    let reasons := if contextKeyword context then reasons ++ [rCtxKeywords] else reasons
    let is_threat := decide ((0.7 : ℚ) ≤ confidence)
    let severity : String :=
      if (0.85 : ℚ) ≤ confidence then sevCritical
      else if (0.65 : ℚ) ≤ confidence then sevHigh
      else if (0.45 : ℚ) ≤ confidence then sevMedium
      else sevLow
    Except.ok
      { is_threat := is_threat
        threat_type := lblPhishing
        confidence := min confidence 1
        severity := severity
        reasons := if reasons = [] then [rLegitimate] else reasons
        latency_ms := 0
        cached := false }

/-- `detect_malware` of the source (total: no slicing, hence no panic path). -/
def detect_malware (code : RStr) : ThreatDetectionResponse :=
  let confidence : ℚ := 0
  let reasons : List String := []
  let fnFired := strContains code (utf8 pEvalFn) || strContains code (utf8 pExecFn)
  let confidence := if fnFired then confidence + 0.3 else confidence
  let reasons := if fnFired then reasons ++ [rSuspiciousFn] else reasons
  let obFired := strContains code (utf8 pAtob) || strContains code (utf8 pFromCharCode)
  let confidence := if obFired then confidence + 0.3 else confidence
  let reasons := if obFired then reasons ++ [rObfuscation] else reasons
  let injFired := strContains code (utf8 pScriptTag) || strContains code (utf8 pOnclick)
  let confidence := if injFired then confidence + 0.3 else confidence
  let reasons := if injFired then reasons ++ [rInjection] else reasons
  let is_threat := decide ((0.75 : ℚ) ≤ confidence)
  let severity : String :=
    if (0.85 : ℚ) ≤ confidence then sevCritical
    else if (0.65 : ℚ) ≤ confidence then sevHigh
    else sevMedium
  { is_threat := is_threat
    threat_type := lblMalware
    confidence := min confidence 1
    severity := severity
    reasons := if reasons = [] then [rCodeSafe] else reasons
    latency_ms := 0
    cached := false }

/-- `detect_behavior` of the source: a constant placeholder result. -/
def detect_behavior (_action : RStr) : ThreatDetectionResponse :=
  { is_threat := false
    threat_type := lblBehavioral
    confidence := 0
    severity := sevLow
    reasons := [rBehaviorPending]
    latency_ms := 0
    cached := false }

/-! SHA-256 (the `sha2` crate behind `hash_string`), modelled bit-exactly
over `Nat` with explicit reduction mod 2^32. -/

/-- Reduce to a 32-bit word. -/
def w32 (x : Nat) : Nat := x % 4294967296

/-- 32-bit rotate right. -/
def rotr32 (n x : Nat) : Nat := w32 ((x >>> n) ||| (x <<< (32 - n)))

/-- SHA-256 Σ₀. -/
def bsig0 (x : Nat) : Nat := rotr32 2 x ^^^ rotr32 13 x ^^^ rotr32 22 x

/-- SHA-256 Σ₁. -/
def bsig1 (x : Nat) : Nat := rotr32 6 x ^^^ rotr32 11 x ^^^ rotr32 25 x

/-- SHA-256 σ₀. -/
def ssig0 (x : Nat) : Nat := rotr32 7 x ^^^ rotr32 18 x ^^^ (x >>> 3)

/-- SHA-256 σ₁. -/
def ssig1 (x : Nat) : Nat := rotr32 17 x ^^^ rotr32 19 x ^^^ (x >>> 10)

/-- SHA-256 Ch. -/
def chFn (x y z : Nat) : Nat := (x &&& y) ^^^ ((x ^^^ 0xffffffff) &&& z)

/-- SHA-256 Maj. -/
def majFn (x y z : Nat) : Nat := (x &&& y) ^^^ (x &&& z) ^^^ (y &&& z)

/-- SHA-256 round constants. -/
def shaK : List Nat :=
  [1116352408, 1899447441, 3049323471, 3921009573, 961987163,
   1508970993, 2453635748, 2870763221, 3624381080, 310598401,
   607225278, 1426881987, 1925078388, 2162078206, 2614888103,
   3248222580, 3835390401, 4022224774, 264347078, 604807628,
   770255983, 1249150122, 1555081692, 1996064986, 2554220882,
   2821834349, 2952996808, 3210313671, 3336571891, 3584528711,
   113926993, 338241895, 666307205, 773529912, 1294757372,
   1396182291, 1695183700, 1986661051, 2177026350, 2456956037,
   2730485921, 2820302411, 3259730800, 3345764771, 3516065817,
   3600352804, 4094571909, 275423344, 430227734, 506948616,
   659060556, 883997877, 958139571, 1322822218, 1537002063,
   1747873779, 1955562222, 2024104815, 2227730452, 2361852424,
   2428436474, 2756734187, 3204031479, 3329325298]

/-- SHA-256 initial hash value. -/
def shaH0 : List Nat :=
  [1779033703, 3144134277, 1013904242, 2773480762,
   1359893119, 2600822924, 528734635, 1541459225]

/-- A 64-bit value as 8 big-endian bytes. -/
def bytesBE8 (n : Nat) : List Nat :=
  [(n >>> 56) % 256, (n >>> 48) % 256, (n >>> 40) % 256, (n >>> 32) % 256,
   (n >>> 24) % 256, (n >>> 16) % 256, (n >>> 8) % 256, n % 256]

/-- SHA-256 message padding: 0x80, zeros to 56 mod 64, 64-bit big-endian
bit length. -/
def shaPad (m : List Nat) : List Nat :=
  m ++ [0x80] ++ List.replicate ((119 - m.length % 64) % 64) 0 ++ bytesBE8 (8 * m.length)

/-- Bytes to 32-bit big-endian words (length a multiple of 4 after padding). -/
def wordsBE : List Nat → List Nat
  | a :: b :: c :: d :: rest => (((a * 256 + b) * 256 + c) * 256 + d) :: wordsBE rest
  | _ => []

/-- Split a word list into 16-word blocks (the padded message is always a
whole number of blocks); the fuel argument, instantiated with the list
length, only drives structural recursion. -/
def chunk16 : Nat → List Nat → List (List Nat)
  | _, [] => []
  | 0, _ :: _ => []
  | fuel + 1, l => l.take 16 :: chunk16 fuel (l.drop 16)

/-- Extend a 16-word block by `fuel` schedule words (48 for SHA-256). -/
def extendW : Nat → List Nat → List Nat
  | 0, w => w
  | n + 1, w =>
    let L := w.length
    let nw := w32 (ssig1 (w.getD (L - 2) 0) + w.getD (L - 7) 0 +
      ssig0 (w.getD (L - 15) 0) + w.getD (L - 16) 0)
    extendW n (w ++ [nw])

/-- One SHA-256 compression round on the 8-word state. -/
def shaRound (st : List Nat) (kw : Nat × Nat) : List Nat :=
  match st with
  | [a, b, c, d, e, f, g, h] =>
    let t1 := w32 (h + bsig1 e + chFn e f g + kw.1 + kw.2)
    let t2 := w32 (bsig0 a + majFn a b c)
    [w32 (t1 + t2), a, b, c, w32 (d + t1), e, f, g]
  | other => other

/-- SHA-256 compression of one block into the running hash. -/
def shaCompress (h : List Nat) (block : List Nat) : List Nat :=
  let w := extendW 48 block
  let st := (shaK.zip w).foldl shaRound h
  (h.zip st).map (fun p => w32 (p.1 + p.2))

/-- SHA-256 digest (32 bytes) of a byte sequence. -/
def sha256 (m : List Nat) : List Nat :=
  let ws := wordsBE (shaPad m)
  let hfin := (chunk16 ws.length ws).foldl shaCompress shaH0
  hfin.flatMap (fun wd => [(wd >>> 24) % 256, (wd >>> 16) % 256, (wd >>> 8) % 256, wd % 256])

/-- Lowercase hex digit byte of a nibble. -/
def hexDigit (n : Nat) : Nat := if n < 10 then 48 + n else 87 + n

/-- `hash_string` of the source: the SHA-256 digest rendered as 64 lowercase
hexadecimal characters (bytes of the hex string). -/
def hash_string (input : RStr) : RStr :=
  (sha256 input).flatMap (fun b => [hexDigit (b / 16), hexDigit (b % 16)])

/-! The shared state: the `lru` crate's cache and the statistics. -/

/-- The `lru::LruCache<String, CachedResult>` of `AppState`: `entries` in
recency order, most recent first; `cap` the fixed capacity passed at
construction. -/
structure LruCache where
  cap : Nat
  entries : List (RStr × ThreatDetectionResponse)
deriving DecidableEq

/-- `LruCache::peek`: look the key up WITHOUT updating recency order. -/
def lruPeek (c : LruCache) (k : RStr) : Option ThreatDetectionResponse :=
  c.entries.lookup k

/-- `LruCache::put`: insert or update the key, make it most recent, evict
the least-recently-used (back) entry when the capacity is exceeded. -/
def lruPut (c : LruCache) (k : RStr) (v : ThreatDetectionResponse) : LruCache :=
  let rest := c.entries.eraseP (fun e => e.1 == k)
  let grown := (k, v) :: rest
  { c with entries := if c.cap < grown.length then grown.dropLast else grown }

/-- `DetectionStats` of the source. -/
structure DetectionStats where
  total_detections : Nat
  threats_detected : Nat
  cache_hits : Nat
  latencies : List Nat
deriving DecidableEq

/-- The shared `AppState`. -/
structure AppState where
  cache : LruCache
  stats : DetectionStats
deriving DecidableEq

/-- The latency-window update of `detect_threat`: push, then drop the oldest
sample when the window exceeds 1000 entries. -/
def pushWindow (l : List Nat) (x : Nat) : List Nat :=
  let l2 := l ++ [x]
  if 1000 < l2.length then l2.drop 1 else l2

/-- The `:` delimiter of the composite cache key. -/
def sColon : String := ":"

/-- The composite cache-key string
`format!("{}:{}:{}", threat_type, content, context.unwrap_or(""))`. -/
def cache_key (req : ThreatDetectionRequest) : RStr :=
  req.threat_type ++ utf8 sColon ++ req.content ++ utf8 sColon ++ req.context.getD []

/-- The hashed cache key `hash_string(&cache_key)`. -/
def hashKeyOf (req : ThreatDetectionRequest) : RStr := hash_string (cache_key req)

/-- The result built for an unrecognized threat type (its `latency_ms` is
the elapsed time in `detect_threat` and 0 in `detect_batch`). -/
def unknownResponse (latency : Nat) : ThreatDetectionResponse :=
  { is_threat := false
    threat_type := sUnknown
    confidence := 0
    severity := sUnknown
    reasons := [rUnknownType]
    latency_ms := latency
    cached := false }

/-- The classifier dispatch on `threat_type` shared verbatim by
`detect_threat` (with `unkLatency` the elapsed time) and `detect_batch`
(with `unkLatency = 0`). -/
def runClassification (unkLatency : Nat) (req : ThreatDetectionRequest) :
    Except String ThreatDetectionResponse :=
  if req.threat_type = utf8 sUrl then detect_phishing req.content req.context
  else if req.threat_type = utf8 sCode then Except.ok (detect_malware req.content)
  else if req.threat_type = utf8 sAction then Except.ok (detect_behavior req.content)
  else Except.ok (unknownResponse unkLatency)

/-- `detect_threat` of the source (the single-item Classify path): probe the
cache with `peek`; on a hit bump `cache_hits` and return the stored result
re-stamped `cached := true, latency_ms := elapsed`; on a miss classify,
update the counters and the latency window, `put` the result, and return
it unchanged. -/
def detect_threat (st : AppState) (req : ThreatDetectionRequest) (elapsed : Nat) :
    Except String (ThreatDetectionResponse × AppState) :=
  let hash_key := hashKeyOf req
  match lruPeek st.cache hash_key with
  | some cachedRes =>
    let stats := st.stats
    let stats := { stats with cache_hits := stats.cache_hits + 1 }
    let response := { cachedRes with cached := true, latency_ms := elapsed }
    Except.ok (response, { st with stats := stats })
  | none =>
    match runClassification elapsed req with
    | Except.error e => Except.error e
    | Except.ok result =>
      let stats := st.stats
      let stats := { stats with total_detections := stats.total_detections + 1 }
      let stats :=
        if result.is_threat then
          { stats with threats_detected := stats.threats_detected + 1 }
        else stats
      let stats := { stats with latencies := pushWindow stats.latencies result.latency_ms }
      let cache := lruPut st.cache hash_key result
      Except.ok (result, { cache := cache, stats := stats })

/-- `BatchDetectionResponse` of the source. -/
structure BatchDetectionResponse where
  results : List ThreatDetectionResponse
  total_latency_ms : Nat
deriving DecidableEq

/-- The per-item classification loop of `detect_batch`
(`req.threats.iter().map(..).collect()`): classify each item in input
order; the first panic aborts the whole collection. -/
def classifyAll : List ThreatDetectionRequest → Except String (List ThreatDetectionResponse)
  | [] => Except.ok []
  | req :: rest =>
    match runClassification 0 req with
    | Except.error e => Except.error e
    | Except.ok r =>
      match classifyAll rest with
      | Except.error e => Except.error e
      | Except.ok rs => Except.ok (r :: rs)

/-- `detect_batch` of the source: classify each item in input order with no
cache probe, no cache insert and no stats update; `elapsed` is the reported
aggregate wall-clock time. A panic in any item aborts the whole request
(`Except.error`). -/
def detect_batch (st : AppState) (reqs : List ThreatDetectionRequest) (elapsed : Nat) :
    Except String (BatchDetectionResponse × AppState) :=
  match classifyAll reqs with
  | Except.error e => Except.error e
  | Except.ok results =>
    Except.ok ({ results := results, total_latency_ms := elapsed }, st)

/-- The state built in `main`: an empty cache of capacity 10000 and zeroed
statistics. -/
def initialState : AppState :=
  { cache := { cap := 10000, entries := [] }
    stats := { total_detections := 0, threats_detected := 0, cache_hits := 0, latencies := [] } }

/-- A sequence of single-item Classify calls, each with its elapsed time;
stops at the first panic. -/
def runCalls (st : AppState) :
    List (ThreatDetectionRequest × Nat) →
      Except String (List ThreatDetectionResponse × AppState)
  | [] => Except.ok ([], st)
  | (req, e) :: rest =>
    match detect_threat st req e with
    | Except.error err => Except.error err
    | Except.ok (resp, st2) =>
      match runCalls st2 rest with
      | Except.error err => Except.error err
      | Except.ok (rs, st3) => Except.ok (resp :: rs, st3)

/-! Observables of the cache, and the spec-side rendering of the IP-address
signal condition, for the claims below. -/

/-- The cached keys in recency order (most recently inserted first). -/
def cacheKeys (c : LruCache) : List RStr := c.entries.map (fun e => e.1)

/-- Occupancy within capacity, for a Classify-call-sequence outcome
(vacuously true when the run panicked). -/
def boundOk : Except String (List ThreatDetectionResponse × AppState) → Bool
  | Except.error _ => true
  | Except.ok (_, st) => decide (st.cache.entries.length ≤ st.cache.cap)

/-- One Classify step never removes a key other than the least-recently-put
(back) one: every key cached before the call is still cached after it or is
the back of the pre-call recency order. -/
def removedOnlyOldest (st : AppState) (req : ThreatDetectionRequest) (e : Nat) : Bool :=
  match detect_threat st req e with
  | Except.error _ => true
  | Except.ok (_, st2) =>
    (cacheKeys st.cache).all fun k =>
      (cacheKeys st2.cache).contains k || ((cacheKeys st.cache).getLast? == some k)

/-- The spec's wording of the IP-address signal condition (claim C4), to be
compared with the source's `ipSignal`: the content BEGINS with the literal
scheme and the character immediately following it is a digit. -/
def specIpSignalFires (url : RStr) : Bool :=
  leadsWith url (utf8 pHttpScheme) && startsWithNumericChar (url.drop 7)

/-! Concrete inputs used by the claim counterexamples and witnesses. -/

def sEuroUrl : String := "€€€http://1"
def sC4Url : String := "00000001http://x"
def sHttp1 : String := "http://1"
def sLetterA : String := "a"
def sLetterB : String := "b"
def sLetterC : String := "c"
def sSplitAB : String := "a:b"
def sSplitB : String := "b:"

/-- A url-kind request whose content has multibyte characters before the
scheme, so that byte 7 is not a char boundary. -/
def reqEuro : ThreatDetectionRequest := ⟨utf8 sUrl, utf8 sEuroUrl, none⟩

/-- A code-kind request (a guaranteed cache miss against a fresh state). -/
def reqCodeA : ThreatDetectionRequest := ⟨utf8 sCode, utf8 sLetterA, none⟩

def reqActionA : ThreatDetectionRequest := ⟨utf8 sAction, utf8 sLetterA, none⟩
def reqActionB : ThreatDetectionRequest := ⟨utf8 sAction, utf8 sLetterB, none⟩
def reqActionC : ThreatDetectionRequest := ⟨utf8 sAction, utf8 sLetterC, none⟩

/-- Two distinct requests splitting the same text differently between
`content` and `context`, with the `:` delimiter inside a field: both
composite keys read `url:a:b:`. -/
def reqCollide1 : ThreatDetectionRequest := ⟨utf8 sUrl, utf8 sSplitAB, none⟩

/-- See `reqCollide1`. -/
def reqCollide2 : ThreatDetectionRequest := ⟨utf8 sUrl, utf8 sLetterA, some (utf8 sSplitB)⟩

/-- A capacity-2 state (the capacity is the `LruCache::new` argument; `main`
passes 10000) small enough to drive the cache to eviction in a short trace. -/
def capTwoState : AppState :=
  { cache := { cap := 2, entries := [] }
    stats := { total_detections := 0, threats_detected := 0, cache_hits := 0, latencies := [] } }

/-- The stored (miss-path) result for `reqActionA`. -/
def storedA : ThreatDetectionResponse := detect_behavior (utf8 sLetterA)

/-- A state whose cache already holds `reqActionA`'s key. -/
def stSeed : AppState :=
  { cache := { cap := 2, entries := [(hashKeyOf reqActionA, storedA)] }
    stats := { total_detections := 0, threats_detected := 0, cache_hits := 0, latencies := [] } }

/-- First-call result on `stSeed` (cache hit, elapsed 1). -/
def r1Val : ThreatDetectionResponse := { storedA with cached := true, latency_ms := 1 }

/-- State after the first hit on `stSeed`. -/
def st1Val : AppState :=
  { cache := stSeed.cache
    stats := { total_detections := 0, threats_detected := 0, cache_hits := 1, latencies := [] } }

/-- Second-call result on `st1Val` (cache hit, elapsed 2). -/
def r2Val : ThreatDetectionResponse := { storedA with cached := true, latency_ms := 2 }

/-- State after the second hit. -/
def st2Val : AppState :=
  { cache := stSeed.cache
    stats := { total_detections := 0, threats_detected := 0, cache_hits := 2, latencies := [] } }

/-- The miss-path result of `reqCodeA`. -/
def rC3Val : ThreatDetectionResponse := detect_malware (utf8 sLetterA)

/-- State after classifying `reqCodeA` from the initial state. -/
def stC3Val : AppState :=
  { cache := lruPut initialState.cache (hashKeyOf reqCodeA) rC3Val
    stats := { total_detections := 1, threats_detected := 0, cache_hits := 0, latencies := [0] } }

/-- The ok `detect_phishing` result of the url `http://1`. -/
def rHttp1Val : ThreatDetectionResponse :=
  { is_threat := false
    threat_type := lblPhishing
    confidence := 0.3
    severity := sevLow
    reasons := [rIpAddress]
    latency_ms := 0
    cached := false }

/-- The batch response for the one-item batch `[reqActionA]` at elapsed 7. -/
def outBatchVal : BatchDetectionResponse := { results := [storedA], total_latency_ms := 7 }

/-! Helper lemmas about the classifiers. -/

/-- An ok outcome of the IP-address check is exactly the conjunction the
source's short-circuit `&&` computes. -/
theorem ipSignal_ok {url : RStr} {b : Bool} (h : ipSignal url = Except.ok b) :
    b = (strContains url (utf8 pHttpScheme) && startsWithNumericChar (url.drop 7)) := by
  unfold ipSignal at h
  split at h
  · rename_i hc
    split at h
    · exact Except.noConfusion h
    · rename_i t ht
      unfold rsliceFrom at ht
      split at ht
      · injection ht with ht
        injection h with h
        rw [← h, ← ht, hc]
        simp
      · exact Except.noConfusion ht
  · rename_i hc
    injection h with h
    rw [← h]
    simp only [Bool.not_eq_true] at hc
    rw [hc]
    simp

/-- Characterization of every ok `detect_phishing` result: its fields are
determined by a nonnegative pre-clamp confidence `c`. -/
theorem detect_phishing_shape {url : RStr} {ctx : Option RStr} {r : ThreatDetectionResponse}
    (h : detect_phishing url ctx = Except.ok r) :
    ∃ c : ℚ, r.confidence = min c 1 ∧ 0 ≤ c ∧ r.is_threat = decide ((0.7 : ℚ) ≤ c) ∧
      r.reasons ≠ [] ∧ r.latency_ms = 0 ∧ r.cached = false ∧ r.threat_type = lblPhishing := by
  rcases hip : ipSignal url with e | ipFired
  · simp only [detect_phishing, hip] at h
    exact Except.noConfusion h
  · simp only [detect_phishing, hip] at h
    split_ifs at h <;>
      (injection h with h; subst h;
       first
         | (refine ⟨_, rfl, ?_, rfl, ?_, rfl, rfl, rfl⟩ <;> first | (norm_num; done) | (simp; done))
         | exact absurd (rfl : ([] : List String) = []) (by assumption))

/-- Characterization of every `detect_malware` result. -/
theorem detect_malware_shape {code : RStr} {r : ThreatDetectionResponse}
    (h : detect_malware code = r) :
    ∃ c : ℚ, r.confidence = min c 1 ∧ 0 ≤ c ∧ r.is_threat = decide ((0.75 : ℚ) ≤ c) ∧
      r.reasons ≠ [] ∧ r.latency_ms = 0 ∧ r.cached = false ∧ r.threat_type = lblMalware := by
  simp only [detect_malware] at h
  split_ifs at h <;>
    (subst h;
     first
       | (refine ⟨_, rfl, ?_, rfl, ?_, rfl, rfl, rfl⟩ <;> first | (norm_num; done) | (simp; done))
       | exact absurd (rfl : ([] : List String) = []) (by assumption))

/-- A threshold at most 1 is reached by the clamped confidence iff it is
reached by the pre-clamp confidence. -/
theorem le_min_one_iff {t c : ℚ} (ht : t ≤ 1) : t ≤ min c 1 ↔ t ≤ c := by
  rw [le_min_iff]
  exact and_iff_left ht

/-- Every ok classification result still carries `cached = false`, and its
`latency_ms` is 0 from the three real classifiers and the `unkLatency`
argument from the unrecognized-kind arm. -/
theorem runClassification_fields {u : Nat} {req : ThreatDetectionRequest}
    {r : ThreatDetectionResponse} (h : runClassification u req = Except.ok r) :
    r.cached = false ∧
      r.latency_ms = (if req.threat_type = utf8 sUrl ∨ req.threat_type = utf8 sCode ∨
        req.threat_type = utf8 sAction then 0 else u) := by
  unfold runClassification at h
  split_ifs at h with hu hc ha
  · obtain ⟨c, hconf, hc0, hth, hr, hl, hcc, hty⟩ := detect_phishing_shape h
    exact ⟨hcc, by rw [hl, if_pos (Or.inl hu)]⟩
  · injection h with h
    obtain ⟨c, hconf, hc0, hth, hr, hl, hcc, hty⟩ := detect_malware_shape h
    exact ⟨hcc, by rw [hl, if_pos (Or.inr (Or.inl hc))]⟩
  · injection h with h
    subst h
    exact ⟨rfl, by rw [if_pos (Or.inr (Or.inr ha))]; rfl⟩
  · injection h with h
    subst h
    exact ⟨rfl, by rw [if_neg (by simp [hu, hc, ha])]; rfl⟩

/-- Every item of an ok batch-classification collection has `cached = false`
and `latency_ms = 0`. -/
theorem classifyAll_fields {reqs : List ThreatDetectionRequest}
    {rs : List ThreatDetectionResponse} (h : classifyAll reqs = Except.ok rs) :
    ∀ r ∈ rs, r.cached = false ∧ r.latency_ms = 0 := by
  induction reqs generalizing rs with
  | nil =>
    rw [classifyAll] at h
    injection h with h
    subst h
    intro r hr
    exact absurd hr (List.not_mem_nil r)
  | cons a t ih =>
    rw [classifyAll] at h
    rcases hx : runClassification 0 a with e | x <;> rw [hx] at h
    · exact Except.noConfusion h
    · rcases ht : classifyAll t with e2 | xs <;> rw [ht] at h
      · exact Except.noConfusion h
      · injection h with h
        subst h
        intro r hr
        rcases List.mem_cons.mp hr with rfl | hr2
        · obtain ⟨hc, hl⟩ := runClassification_fields hx
          refine ⟨hc, ?_⟩
          rw [hl]
          split <;> rfl
        · exact ih ht r hr2

/-- After a `put`, the key just put is cached (the eviction, if any, removes
an older entry, never the fresh front one, since the capacity is positive). -/
theorem lruPeek_lruPut_self {c : LruCache} {k : RStr} {v : ThreatDetectionResponse}
    (hcap : 0 < c.cap) : lruPeek (lruPut c k v) k = some v := by
  unfold lruPeek lruPut
  dsimp only
  split
  · rename_i hlen
    rcases hrest : c.entries.eraseP (fun e => e.1 == k) with _ | ⟨a, t⟩ <;> rw [hrest] at hlen
    · simp at hlen
      omega
    · rw [hrest, List.dropLast_cons₂]
      simp [List.lookup]
  · simp [List.lookup]

/-- Claim C3 (amended): on a cache miss, the stats window receives exactly
the classifier-stamped `latency_ms` of the returned result — which is 0 for
the three recognized kinds and the elapsed value only for unrecognized
kinds — and the result is returned with `cached = false`; the Dispatcher
never overwrites the miss-path latency with the measured elapsed time. -/
theorem detect_threat_miss_window {st : AppState} {req : ThreatDetectionRequest} {e : Nat}
    {r : ThreatDetectionResponse} {st' : AppState}
    (hmiss : lruPeek st.cache (hashKeyOf req) = none)
    (h : detect_threat st req e = Except.ok (r, st')) :
    st'.stats.latencies = pushWindow st.stats.latencies r.latency_ms ∧
      r.latency_ms = (if req.threat_type = utf8 sUrl ∨ req.threat_type = utf8 sCode ∨
        req.threat_type = utf8 sAction then 0 else e) ∧
      r.cached = false := by
  unfold detect_threat at h
  dsimp only at h
  simp only [hmiss] at h
  rcases hcl : runClassification e req with er | result <;> rw [hcl] at h
  · exact Except.noConfusion h
  · injection h with h
    injection h with hr hst
    subst hr
    subst hst
    obtain ⟨hcc, hl⟩ := runClassification_fields hcl
    refine ⟨?_, hl, hcc⟩
    dsimp only
    congr 1
    split <;> rfl

set_option maxHeartbeats 1600000 in
/-- The IP-address reason appears in an ok phishing result exactly when the
IP check fired. -/
theorem detect_phishing_ip_reason {url : RStr} {ctx : Option RStr}
    {r : ThreatDetectionResponse} {b : Bool}
    (hip : ipSignal url = Except.ok b) (h : detect_phishing url ctx = Except.ok r) :
    (rIpAddress ∈ r.reasons ↔ b = true) := by
  simp only [detect_phishing, hip] at h
  cases b
  · split_ifs at h <;>
      first
        | (injection h with h; subst h; decide)
        | exact (by assumption : False).elim
        | exact absurd rfl (by assumption : ¬true = true)
        | (rename_i hbad; simp at hbad)
  · split_ifs at h <;>
      first
        | (injection h with h; subst h; decide)
        | exact (by assumption : False).elim
        | exact absurd rfl (by assumption : ¬true = true)
        | (rename_i hbad; simp at hbad)

/-! Association-list and recency-list lemmas supporting the cache claims. -/

/-- Erasing the entry of a key the lookup does not find is a no-op. -/
theorem eraseP_of_lookup_none {l : List (RStr × ThreatDetectionResponse)} {k : RStr}
    (h : l.lookup k = none) : l.eraseP (fun e => e.1 == k) = l := by
  induction l with
  | nil => rfl
  | cons a t ih =>
    obtain ⟨k2, v2⟩ := a
    rcases hka : (k == k2) with _ | _ <;> simp only [List.lookup, hka] at h
    · have hne : (k2 == k) = false :=
        beq_eq_false_iff_ne.mpr (Ne.symm (beq_eq_false_iff_ne.mp hka))
      rw [List.eraseP_cons_of_neg (by simp [hne]), ih h]
    · exact Option.noConfusion h

/-- An element of a list is in the list minus its back, or is the back. -/
theorem mem_dropLast_or_getLast {α : Type} {l : List α} {a : α} (h : a ∈ l) :
    a ∈ l.dropLast ∨ l.getLast? = some a := by
  induction l with
  | nil => cases h
  | cons x t ih =>
    cases t with
    | nil =>
      rw [List.mem_singleton] at h
      subst h
      right
      exact List.getLast?_singleton _
    | cons y u =>
      rcases List.mem_cons.mp h with rfl | h2
      · left
        rw [List.dropLast_cons₂]
        exact List.mem_cons_self _ _
      · rcases ih h2 with hd | hl
        · left
          rw [List.dropLast_cons₂]
          exact List.mem_cons_of_mem _ hd
        · right
          rw [List.getLast?_cons_cons]
          exact hl

/-- `put` keeps occupancy within capacity. -/
theorem lruPut_length {c : LruCache} {k : RStr} {v : ThreatDetectionResponse}
    (hb : c.entries.length ≤ c.cap) :
    (lruPut c k v).entries.length ≤ (lruPut c k v).cap := by
  unfold lruPut
  dsimp only
  have he := List.length_eraseP_le (p := fun (e : RStr × ThreatDetectionResponse) => e.1 == k)
    c.entries
  split
  · rename_i hlen
    rw [List.length_dropLast]
    simp only [List.length_cons]
    omega
  · rename_i hlen
    simp only [List.length_cons] at hlen ⊢
    omega

/-- One Classify call keeps occupancy within capacity. -/
theorem detect_threat_bound {st : AppState} {req : ThreatDetectionRequest} {e : Nat}
    {r : ThreatDetectionResponse} {st' : AppState}
    (h : detect_threat st req e = Except.ok (r, st'))
    (hb : st.cache.entries.length ≤ st.cache.cap) :
    st'.cache.entries.length ≤ st'.cache.cap := by
  unfold detect_threat at h
  dsimp only at h
  split at h
  · injection h with h
    injection h with h1 h2
    subst h2
    exact hb
  · split at h
    · exact Except.noConfusion h
    · rename_i result hclass
      injection h with h
      injection h with h1 h2
      subst h2
      exact lruPut_length hb

/-- Any sequence of Classify calls keeps occupancy within capacity. -/
theorem runCalls_bound {calls : List (ThreatDetectionRequest × Nat)} :
    ∀ {st : AppState}, st.cache.entries.length ≤ st.cache.cap →
      boundOk (runCalls st calls) = true := by
  induction calls with
  | nil =>
    intro st hb
    rw [runCalls]
    simp [boundOk, hb]
  | cons c rest ih =>
    intro st hb
    obtain ⟨req, e⟩ := c
    rw [runCalls]
    rcases hd : detect_threat st req e with er | ⟨resp, st2⟩
    · rfl
    · have ih2 := ih (detect_threat_bound hd hb)
      dsimp only
      rcases hrc : runCalls st2 rest with er2 | ⟨rs, st3⟩
      · rfl
      · rw [hrc] at ih2
        exact ih2

/-- A key cached before a `put` of a fresh key survives it or is the back of
the recency order. -/
theorem lruPut_mem_keys {c : LruCache} {k key : RStr} {v : ThreatDetectionResponse}
    (hpk : c.entries.lookup key = none) (hk : k ∈ cacheKeys c) :
    k ∈ cacheKeys (lruPut c key v) ∨ (cacheKeys c).getLast? = some k := by
  unfold cacheKeys at hk ⊢
  unfold lruPut
  dsimp only
  rw [eraseP_of_lookup_none hpk]
  split
  · rename_i hlen
    rw [List.map_dropLast]
    simp only [List.map_cons]
    rcases mem_dropLast_or_getLast hk with hd | hl
    · left
      rcases hmap : List.map (fun e => e.1) c.entries with _ | ⟨y, u⟩
      · rw [hmap] at hk
        cases hk
      · rw [hmap] at hd ⊢
        rw [List.dropLast_cons₂]
        exact List.mem_cons_of_mem _ hd
    · right
      exact hl
  · left
    simp only [List.map_cons]
    exact List.mem_cons_of_mem _ hk

/-- No Classify call ever removes a cached key other than the
least-recently-put one. -/
theorem removedOnlyOldest_true (st : AppState) (req : ThreatDetectionRequest) (e : Nat) :
    removedOnlyOldest st req e = true := by
  unfold removedOnlyOldest detect_threat
  dsimp only
  rcases hpk : lruPeek st.cache (hashKeyOf req) with _ | cachedRes
  · dsimp only
    rcases hcl : runClassification e req with er | result
    · rfl
    · dsimp only
      rw [List.all_eq_true]
      intro k hk
      rw [Bool.or_eq_true]
      simp only [List.contains, List.elem_iff, beq_iff_eq]
      exact lruPut_mem_keys hpk hk
  · dsimp only
    rw [List.all_eq_true]
    intro k hk
    rw [Bool.or_eq_true]
    simp only [List.contains, List.elem_iff, beq_iff_eq]
    left
    exact hk

/-! The claims. -/

set_option maxRecDepth 1000000

section ClaimEvaluation

attribute [local semireducible] Rat.ofScientific Rat.add

/-- Claim C1 (refuted, code bug): classification is NOT total. On a url-kind
request whose content has multibyte characters before the "http://"
substring (here `€€€http://1`), the IP-address check evaluates `url[7..]`
with byte 7 inside a multibyte character and panics; both the shared
classification step and the whole single-item dispatch abort instead of
producing a result. -/
theorem c1_ip_check_panics :
    runClassification 0 reqEuro = Except.error panicCharBoundary ∧
      detect_threat initialState reqEuro 0 = Except.error panicCharBoundary :=
  ⟨by decide, by decide⟩

/-- Claim C2 (counterexample): cache-hit reads do NOT count as accesses for
eviction. With capacity 2, after Classify(A), Classify(B), Classify(A)
(a hit: the third result is the only one with `cached = true`) and
Classify(C), the claim says B (whose last access predates A's hit) is
evicted and A retained; the code's fourth call evicts A (its key no longer
peeks) and retains B, because lookups use `peek`, which leaves the recency
order unchanged. -/
theorem c2_counterexample :
    (runCalls capTwoState
        [(reqActionA, 0), (reqActionB, 0), (reqActionA, 0), (reqActionC, 0)]).map
        (fun p => (p.1.map (fun r => r.cached),
          decide (lruPeek p.2.cache (hashKeyOf reqActionA) = none),
          decide (lruPeek p.2.cache (hashKeyOf reqActionB) ≠ none))) =
      Except.ok ([false, false, true, false], true, true) := by decide

/-- Claim C2 (amended): for every state within capacity, any sequence of
single-item Classify calls keeps cache occupancy within capacity, and any
single Classify call evicts nothing except possibly the
least-recently-INSERTED key (the back of the recency order): cache-hit
reads do not refresh recency, since the lookup uses `peek`. -/
theorem c2_amended :
    ∀ (st : AppState) (calls : List (ThreatDetectionRequest × Nat))
      (req : ThreatDetectionRequest) (e : Nat),
      st.cache.entries.length ≤ st.cache.cap →
      boundOk (runCalls st calls) = true ∧ removedOnlyOldest st req e = true :=
  fun st calls req e hb => ⟨runCalls_bound hb, removedOnlyOldest_true st req e⟩

/-- Witness for C2 (amended) at a concrete state and call sequence. -/
theorem c2_amended_witness :
    capTwoState.cache.entries.length ≤ capTwoState.cache.cap ∧
      (boundOk (runCalls capTwoState
          [(reqActionA, 0), (reqActionB, 0), (reqActionC, 0)]) = true ∧
        removedOnlyOldest capTwoState reqActionA 0 = true) :=
  ⟨by decide,
    c2_amended capTwoState [(reqActionA, 0), (reqActionB, 0), (reqActionC, 0)]
      reqActionA 0 (by decide)⟩

/-- Claim C3 (counterexample): on a cache miss the Dispatcher does NOT stamp
the elapsed time. Classifying a code-kind request from the fresh state with
elapsed time 5 ms returns `latency_ms = 0` and appends 0 (not 5) to the
stats window: the miss path keeps the classifier's `latency_ms = 0` and
never overwrites it with the measured elapsed time. -/
theorem c3_counterexample :
    (detect_threat initialState reqCodeA 5).map
        (fun p => (p.1.latency_ms, p.2.stats.latencies)) = Except.ok (0, [0]) ∧
      ¬ (detect_threat initialState reqCodeA 5).map (fun p => p.1.latency_ms) =
        Except.ok 5 :=
  ⟨by decide, by decide⟩

/--Witness for C3 (amended, `detect_threat_miss_window`) at a concrete
miss. -/
theorem c3_amended_witness :
    lruPeek initialState.cache (hashKeyOf reqCodeA) = none ∧
      detect_threat initialState reqCodeA 5 = Except.ok (rC3Val, stC3Val) ∧
      (stC3Val.stats.latencies = pushWindow initialState.stats.latencies rC3Val.latency_ms ∧
        rC3Val.latency_ms = (if reqCodeA.threat_type = utf8 sUrl ∨
          reqCodeA.threat_type = utf8 sCode ∨ reqCodeA.threat_type = utf8 sAction
          then 0 else 5) ∧
        rC3Val.cached = false) :=
  ⟨by decide, by decide,
    @detect_threat_miss_window initialState reqCodeA 5 rC3Val stC3Val (by decide)
      (by decide)⟩

/--Claim C4 (counterexample): the IP-address signal does not require the
content to BEGIN with "http://". On `00000001http://x` the code fires the
signal (byte 7 is the digit `1`, and "http://" occurs later in the string),
while the spec's begins-with condition is false. -/
theorem c4_counterexample :
    (detect_phishing (utf8 sC4Url) none).map
        (fun r => decide (rIpAddress ∈ r.reasons)) = Except.ok true ∧
      specIpSignalFires (utf8 sC4Url) = false :=
  ⟨by decide, by decide⟩

/-- Claim C4 (amended): in every non-panicking phishing classification, the
IP-address signal (its reason string) fires iff the content CONTAINS
"http://" anywhere and the byte suffix from index 7 starts with a numeric
character (when "http://" is present but byte 7 is not a char boundary the
check panics instead, see C1). -/
theorem c4_amended {url : RStr} {ctx : Option RStr} {r : ThreatDetectionResponse}
    (h : detect_phishing url ctx = Except.ok r) :
    (rIpAddress ∈ r.reasons ↔
      (strContains url (utf8 pHttpScheme) && startsWithNumericChar (url.drop 7)) = true) := by
  rcases hip : ipSignal url with e | b
  · simp only [detect_phishing, hip] at h
    exact Except.noConfusion h
  · rw [← ipSignal_ok hip]
    exact detect_phishing_ip_reason hip h

/--Witness for C4 (amended) at the url `http://1`. -/
theorem c4_amended_witness :
    detect_phishing (utf8 sHttp1) none = Except.ok rHttp1Val ∧
      (rIpAddress ∈ rHttp1Val.reasons ↔
        (strContains (utf8 sHttp1) (utf8 pHttpScheme) &&
          startsWithNumericChar ((utf8 sHttp1).drop 7)) = true) :=
  ⟨by decide, @c4_amended (utf8 sHttp1) none rHttp1Val (by decide)⟩

/-- Claim C5: every result the classification step returns (for any kind,
including behavioral and unrecognized) has 0 ≤ confidence ≤ 1 and a
non-empty reasons list (a sentinel reason stands in when no rule fired). -/
theorem c5_confidence_bounds {u : Nat} {req : ThreatDetectionRequest}
    {r : ThreatDetectionResponse} (h : runClassification u req = Except.ok r) :
    0 ≤ r.confidence ∧ r.confidence ≤ 1 ∧ r.reasons ≠ [] := by
  unfold runClassification at h
  split_ifs at h with hu hc ha
  · obtain ⟨c, hconf, hc0, hth, hr, hl, hcc, hty⟩ := detect_phishing_shape h
    rw [hconf]
    exact ⟨le_min_iff.mpr ⟨hc0, by norm_num⟩, min_le_right c 1, hr⟩
  · injection h with h
    obtain ⟨c, hconf, hc0, hth, hr, hl, hcc, hty⟩ := detect_malware_shape h
    rw [hconf]
    exact ⟨le_min_iff.mpr ⟨hc0, by norm_num⟩, min_le_right c 1, hr⟩
  · injection h with h
    subst h
    exact ⟨by norm_num [detect_behavior], by norm_num [detect_behavior],
      by simp [detect_behavior]⟩
  · injection h with h
    subst h
    exact ⟨by norm_num [unknownResponse], by norm_num [unknownResponse],
      by simp [unknownResponse]⟩

/-- Witness for C5 at a concrete behavioral request. -/
theorem c5_confidence_bounds_witness :
    runClassification 0 reqActionA = Except.ok storedA ∧
      (0 ≤ storedA.confidence ∧ storedA.confidence ≤ 1 ∧ storedA.reasons ≠ []) :=
  ⟨by decide, @c5_confidence_bounds 0 reqActionA storedA (by decide)⟩

/-- Claim C6: a returned result's `is_threat` is true iff its (returned,
clamped) confidence reaches the classifier-specific threshold: 0.7 for the
phishing classifier (url kind), 0.75 for the malware classifier (code
kind); for behavioral and unrecognized kinds `is_threat` is always
false. -/
theorem c6_threshold {u : Nat} {req : ThreatDetectionRequest}
    {r : ThreatDetectionResponse} (h : runClassification u req = Except.ok r) :
    (req.threat_type = utf8 sUrl → (r.is_threat = true ↔ (0.7 : ℚ) ≤ r.confidence)) ∧
    (req.threat_type = utf8 sCode → (r.is_threat = true ↔ (0.75 : ℚ) ≤ r.confidence)) ∧
    (req.threat_type ≠ utf8 sUrl → req.threat_type ≠ utf8 sCode → r.is_threat = false) := by
  unfold runClassification at h
  split_ifs at h with hu hc ha
  · obtain ⟨c, hconf, hc0, hth, hr, hl, hcc, hty⟩ := detect_phishing_shape h
    refine ⟨fun _ => ?_, fun h2 => absurd (hu.symm.trans h2) (by decide),
      fun hn _ => absurd hu hn⟩
    rw [hth, hconf, decide_eq_true_eq]
    exact (le_min_one_iff (by norm_num)).symm
  · injection h with h
    obtain ⟨c, hconf, hc0, hth, hr, hl, hcc, hty⟩ := detect_malware_shape h
    refine ⟨fun h2 => absurd (h2.symm.trans hc) (by decide), fun _ => ?_,
      fun _ hn => absurd hc hn⟩
    rw [hth, hconf, decide_eq_true_eq]
    exact (le_min_one_iff (by norm_num)).symm
  · injection h with h
    subst h
    exact ⟨fun h2 => absurd h2 hu, fun h2 => absurd h2 hc, fun _ _ => rfl⟩
  · injection h with h
    subst h
    exact ⟨fun h2 => absurd h2 hu, fun h2 => absurd h2 hc, fun _ _ => rfl⟩

/-- Witness for C6 at a concrete behavioral request, applying the
always-false clause. -/
theorem c6_threshold_witness :
    runClassification 0 reqActionA = Except.ok storedA ∧ storedA.is_threat = false :=
  ⟨by decide, (@c6_threshold 0 reqActionA storedA (by decide)).2.2 (by decide) (by decide)⟩

/-- Claim C7: Classify is idempotent on results: two successive Classify
calls with the identical request (from any state whose cache capacity is
positive, as `NonZeroUsize` guarantees) return the same `is_threat`,
`confidence`, `severity` and `reasons`, and the second call is served from
the cache (`cached = true`); only `cached` and `latency_ms` may differ. -/
theorem c7_idempotent {st : AppState} {req : ThreatDetectionRequest} {e1 e2 : Nat}
    {r1 r2 : ThreatDetectionResponse} {st1 st2 : AppState}
    (hcap : 0 < st.cache.cap)
    (h1 : detect_threat st req e1 = Except.ok (r1, st1))
    (h2 : detect_threat st1 req e2 = Except.ok (r2, st2)) :
    r2.is_threat = r1.is_threat ∧ r2.confidence = r1.confidence ∧
      r2.severity = r1.severity ∧ r2.reasons = r1.reasons ∧ r2.cached = true := by
  unfold detect_threat at h1
  dsimp only at h1
  split at h1
  · rename_i cachedRes hpk
    injection h1 with h1
    injection h1 with hr1 hst1
    subst hr1
    subst hst1
    unfold detect_threat at h2
    dsimp only at h2
    simp only [hpk] at h2
    injection h2 with h2
    injection h2 with hr2 hst2
    subst hr2
    exact ⟨rfl, rfl, rfl, rfl, rfl⟩
  · rename_i hpk
    split at h1
    · exact Except.noConfusion h1
    · rename_i result hclass
      injection h1 with h1
      injection h1 with hr1 hst1
      subst hr1
      subst hst1
      unfold detect_threat at h2
      dsimp only at h2
      rw [lruPeek_lruPut_self hcap] at h2
      injection h2 with h2
      injection h2 with hr2 hst2
      subst hr2
      exact ⟨rfl, rfl, rfl, rfl, rfl⟩

/-- Witness for C7: two hits on a pre-seeded capacity-2 state. -/
theorem c7_idempotent_witness :
    0 < stSeed.cache.cap ∧
      detect_threat stSeed reqActionA 1 = Except.ok (r1Val, st1Val) ∧
      detect_threat st1Val reqActionA 2 = Except.ok (r2Val, st2Val) ∧
      (r2Val.is_threat = r1Val.is_threat ∧ r2Val.confidence = r1Val.confidence ∧
        r2Val.severity = r1Val.severity ∧ r2Val.reasons = r1Val.reasons ∧
        r2Val.cached = true) :=
  ⟨by decide, by decide, by decide,
    @c7_idempotent stSeed reqActionA 1 2 r1Val r2Val st1Val st2Val
      (by decide) (by decide) (by decide)⟩

/-- Claim C8: ClassifyBatch runs only the classification step per item, in
input order, and leaves the whole shared state (cache and every statistic)
unchanged: no cache probe, no cache insert, no stats update. -/
theorem c8_batch_frame {st : AppState} {reqs : List ThreatDetectionRequest} {e : Nat}
    {out : BatchDetectionResponse} {st' : AppState}
    (h : detect_batch st reqs e = Except.ok (out, st')) :
    st' = st ∧ classifyAll reqs = Except.ok out.results ∧ out.total_latency_ms = e := by
  unfold detect_batch at h
  split at h
  · exact Except.noConfusion h
  · rename_i results hm
    injection h with h
    injection h with h1 h2
    subst h2
    subst h1
    exact ⟨rfl, hm, rfl⟩

/-- Witness for C8 at a one-item batch on a pre-seeded state. -/
theorem c8_batch_frame_witness :
    detect_batch stSeed [reqActionA] 7 = Except.ok (outBatchVal, stSeed) ∧
      (stSeed = stSeed ∧ classifyAll [reqActionA] = Except.ok outBatchVal.results ∧
        outBatchVal.total_latency_ms = 7) :=
  ⟨by decide, @c8_batch_frame stSeed [reqActionA] 7 outBatchVal stSeed (by decide)⟩

/-- Claim C9: cache-key derivation is not injective: two distinct requests
that split the same text differently between `content` and `context` (the
`:` delimiter occurring inside a field) build the same composite string
`url:a:b:`, hence the same hashed cache key. -/
theorem c9_cache_key_collision :
    reqCollide1 ≠ reqCollide2 ∧ hashKeyOf reqCollide1 = hashKeyOf reqCollide2 :=
  ⟨by decide, by decide⟩

/-- Claim C10: every per-item result of ClassifyBatch (any kinds, any
contents) carries `cached = false` and `latency_ms = 0`; only the
batch-level `total_latency_ms` reflects elapsed time. -/
theorem c10_batch_item_fields {st : AppState} {reqs : List ThreatDetectionRequest}
    {e : Nat} {out : BatchDetectionResponse} {st' : AppState}
    (h : detect_batch st reqs e = Except.ok (out, st')) :
    ∀ r ∈ out.results, r.cached = false ∧ r.latency_ms = 0 := by
  unfold detect_batch at h
  split at h
  · exact Except.noConfusion h
  · rename_i results hm
    injection h with h
    injection h with h1 h2
    subst h2
    subst h1
    exact classifyAll_fields hm

/-- Witness for C10 at a one-item batch. -/
theorem c10_batch_item_fields_witness :
    detect_batch stSeed [reqActionA] 7 = Except.ok (outBatchVal, stSeed) ∧
      (storedA.cached = false ∧ storedA.latency_ms = 0) :=
  ⟨by decide,
    (@c10_batch_item_fields stSeed [reqActionA] 7 outBatchVal stSeed (by decide))
      storedA (by decide)⟩

end ClaimEvaluation
